import Mathlib

/-
  Verification development for the multiclustertunnel repository.

  The Go sources are shallowly embedded: structs become Lean structures,
  mutexes and atomics are erased (methods become pure state transformers),
  Go channels become bounded lists paired with closed-flags, `context`
  cancellation becomes a Bool flag, and `int64` arithmetic is `Int`
  wrapped to the two's-complement range where overflow matters.
  Nondeterminism of a Go `select` with several ready cases is made
  explicit through a Bool selector parameter.
-/

/-! ## Association lists standing in for Go maps -/

/-- Lookup in an association list; models reading a Go map. -/
def alookup {κ α : Type} [DecidableEq κ] (k : κ) : List (κ × α) → Option α
  | [] => none
  | (k', v) :: rest => if k' = k then some v else alookup k rest

/-- Remove every entry with the given key; models Go `delete(m, k)`
(under the key-uniqueness invariant of a map the two agree). -/
def aerase {κ α : Type} [DecidableEq κ] (k : κ) (l : List (κ × α)) : List (κ × α) :=
  l.filter (fun p => decide (p.1 ≠ k))

/-- Insert or replace under a key; models Go `m[k] = v`. -/
def ainsert {κ α : Type} [DecidableEq κ] (k : κ) (v : α) (l : List (κ × α)) : List (κ × α) :=
  (k, v) :: aerase k l

/-- The keys of an association list. -/
def akeys {κ α : Type} (l : List (κ × α)) : List κ := l.map Prod.fst

/-! ## Packet protocol (api/v1), shared by hub and agent -/

namespace v1

/-- Wire control codes of `v1.ControlCode` (DATA=0, ERROR=1, DRAIN=2);
`other` stands for any value outside the declared enum range. -/
inductive ControlCode : Type
  | data : ControlCode
  | error : ControlCode
  | drain : ControlCode
  | other : Int → ControlCode
  deriving DecidableEq, Repr

/-- Model of `v1.Packet`, the only wire message.  Payload bytes are modelled as
`List Char`. -/
structure Packet : Type where
  connId : Int
  code : ControlCode
  data : List Char
  errorMessage : String
  deriving DecidableEq, Repr

end v1

namespace server

open v1

/-- Two's-complement wrap of Go `int64` arithmetic. -/
def wrap64 (x : Int) : Int := (x + 2 ^ 63) % 2 ^ 64 - 2 ^ 63

/-- Hub-side `packetConnection` (part_009).  `ctxDone` models the packet
connection's context having been cancelled; the mutex is erased. -/
structure packetConnection : Type where
  id : Int
  ctxDone : Bool
  closed : Bool
  closeError : Option String
  incomingChan : List Packet
  deriving DecidableEq, Repr

/-- Capacity of a hub packet connection's `incomingChan` (part_010,
`make(chan *v1.Packet, 100)`). -/
def incomingCap : Nat := 100

/-- Capacity of a tunnel's `outgoingChan` (part_010, `make(chan *v1.Packet, 1000)`). -/
def outgoingCap : Nat := 1000

/-- Hub-side `Tunnel` (part_010).  `outgoingChan = none` models the nil
channel before `Serve` runs; `outClosed` records `close(t.outgoingChan)`.
`inited` models the atomic `int32` init flag (`initialized` in Go);
`panicked` records a send on a closed channel without recover.
`createdAt` (wall-clock time) is not modelled. -/
structure Tunnel : Type where
  id : String
  clusterName : String
  ctxDone : Bool
  packetConns : List (Int × packetConnection)
  nextPacketConnID : Int
  outgoingChan : Option (List Packet)
  outClosed : Bool
  closed : Bool
  inited : Bool
  panicked : Bool
  deriving DecidableEq, Repr

/-- The state set up by `TunnelManager.NewTunnel` (tunnelmanager.go):
all fields at their Go zero values apart from id / cluster / context. -/
def freshTunnel (tid clusterName : String) (ctxDone : Bool) : Tunnel :=
  { id := tid
    clusterName := clusterName
    ctxDone := ctxDone
    packetConns := []
    nextPacketConnID := 0
    outgoingChan := none
    outClosed := false
    closed := false
    inited := false
    panicked := false }

/-- The initialisation block at the top of `Tunnel.Serve` (part_010):
fresh outgoing channel, fresh packet-conn map, init flag set. -/
def serveInit (t : Tunnel) : Tunnel :=
  { t with
    outgoingChan := some []
    outClosed := false
    packetConns := []
    inited := true }

/-- Embeds `Tunnel.NewPacketConn` (part_010).  `callerCtxDone` carries whether
the caller's context is already cancelled (it seeds the packet
connection's derived context). -/
def NewPacketConn (t : Tunnel) (callerCtxDone : Bool) :
    Tunnel × Except String packetConnection :=
  if t.inited = false then
    (t, .error "connection not initialized")
  else if t.closed then
    (t, .error "connection is closed")
  else
    let packetConnID := wrap64 (t.nextPacketConnID + 1)
    let pc : packetConnection :=
      { id := packetConnID
        ctxDone := callerCtxDone
        closed := false
        closeError := none
        incomingChan := [] }
    ({ t with
        nextPacketConnID := packetConnID
        packetConns := ainsert packetConnID pc t.packetConns },
      .ok pc)

/-- Embeds `Tunnel.removePacketConn` (part_010). -/
def removePacketConn (t : Tunnel) (packetConnID : Int) : Tunnel :=
  { t with packetConns := aerase packetConnID t.packetConns }

/-- Outcome of `Tunnel.sendPacket`. -/
inductive SendResult : Type
  | ok : SendResult
  | err : String → SendResult
  | panicked : SendResult
  deriving DecidableEq, Repr

/-- Embeds `Tunnel.sendPacket` (part_010).  The select has a send case, a
ctx-done case and a default; `sel` resolves the race when the send and
the ctx-done case are both ready (a send on a closed channel counts as
ready and panics when chosen — there is no recover here). -/
def sendPacket (t : Tunnel) (p : Packet) (sel : Bool) : Tunnel × SendResult :=
  if t.inited = false then
    (t, .err "connection not initialized")
  else
    match t.outgoingChan with
    | none => (t, .err "connection not ready")
    | some q =>
      let sendReady := t.outClosed ∨ q.length < outgoingCap
      let doSend : Tunnel × SendResult :=
        if t.outClosed then ({ t with panicked := true }, .panicked)
        else ({ t with outgoingChan := some (q ++ [p]) }, .ok)
      if sendReady ∧ t.ctxDone then
        if sel then doSend else (t, .err "context done")
      else if sendReady then doSend
      else if t.ctxDone then (t, .err "context done")
      else (t, .err "outgoing channel is full")

/-- Update the stored state of one packet connection in the map. -/
def updatePC (t : Tunnel) (packetConnID : Int) (pc : packetConnection) : Tunnel :=
  { t with packetConns := ainsert packetConnID pc t.packetConns }

/-- Embeds `Tunnel.handleDataPacket` (part_010).  For a known id: the outer
select drops the packet when the connection's context is done, otherwise
a non-blocking send that drops on a full queue (`incomingChan` is never
closed on the hub side, so the recover path is dead code).  For an
unknown id: a synthetic ERROR packet is pushed to the outgoing channel
with a plain non-blocking send — sending on the channel after `Close`
closed it panics (there is no recover on this branch). -/
def handleDataPacket (t : Tunnel) (p : Packet) : Tunnel :=
  match alookup p.connId t.packetConns with
  | some pc =>
    if pc.ctxDone then t
    else if pc.incomingChan.length < incomingCap then
      updatePC t p.connId { pc with incomingChan := pc.incomingChan ++ [p] }
    else t
  | none =>
    let errorPacket : Packet :=
      { connId := p.connId
        code := .error
        data := []
        errorMessage := "unknown packet connection " ++ toString p.connId }
    match t.outgoingChan with
    | none => t
    | some q =>
      if t.outClosed then { t with panicked := true }
      else if q.length < outgoingCap then { t with outgoingChan := some (q ++ [errorPacket]) }
      else t

/-- Embeds `Tunnel.handleErrorPacket` with `safeSendToStream` inlined
(part_010): drop when the connection's context is done or the queue is
full, otherwise enqueue. -/
def handleErrorPacket (t : Tunnel) (p : Packet) : Tunnel :=
  match alookup p.connId t.packetConns with
  | some pc =>
    if pc.ctxDone then t
    else if pc.incomingChan.length < incomingCap then
      updatePC t p.connId { pc with incomingChan := pc.incomingChan ++ [p] }
    else t
  | none => t

/-- Embeds `Tunnel.Close` (part_010).  Guarded by the `closed` flag; closes
every registered packet connection with a `connection closed` error
(their contexts are cancelled), empties the map, and closes the
outgoing channel if non-nil. -/
def Tunnel.Close (t : Tunnel) : Tunnel :=
  if t.closed then t
  else
    { t with
      closed := true
      packetConns := []
      outClosed := if t.outgoingChan.isSome then true else t.outClosed }

/-- The exit of the `handleIncoming` receive loop. -/
inductive IncomingExit : Type
  | drainErr : IncomingExit
  | recvErr : IncomingExit
  deriving DecidableEq, Repr

/-- Embeds `Tunnel.handleIncoming` (part_010) applied to the list of packets
the gRPC stream delivers before it fails: DATA and ERROR packets are
dispatched, an unknown code is logged and skipped, and a DRAIN packet
makes the loop return the distinguished `agent initiated drain` error.
Exhausting the list models `Recv` returning an error. -/
def handleIncoming (t : Tunnel) : List Packet → Tunnel × IncomingExit
  | [] => (t, .recvErr)
  | p :: rest =>
    match p.code with
    | .data => handleIncoming (handleDataPacket t p) rest
    | .error => handleIncoming (handleErrorPacket t p) rest
    | .drain => (t, .drainErr)
    | .other _ => handleIncoming t rest

/-- Effect of `Tunnel.Serve`  on the tunnel state when the reader is the
goroutine that exits (part_010): init, run the receive loop, then
`Close`. -/
def serveReaderRun (t : Tunnel) (pkts : List Packet) : Tunnel × IncomingExit :=
  ((handleIncoming (serveInit t) pkts).1.Close, (handleIncoming (serveInit t) pkts).2)

/-- Embeds `packetConnection.Send` (part_009): on a closed connection an error
and nothing reaches the tunnel; otherwise the packet's `ConnId` is
overwritten with the connection's id and the result is handed to
`Tunnel.sendPacket`.  The middle component is the packet forwarded to
the tunnel, if any. -/
def packetConnection.Send (pc : packetConnection) (t : Tunnel) (p : Packet) (sel : Bool) :
    Tunnel × Option Packet × SendResult :=
  if pc.closed then
    (t, none, .err ("packet connection is closed: " ++ (pc.closeError.getD "<nil>")))
  else
    let p' := { p with connId := pc.id }
    ((sendPacket t p' sel).1, some p', (sendPacket t p' sel).2)

/-- Embeds `packetConnection.closeWithError` (part_009): once-guarded; records
the error, cancels the connection's context, and removes the connection
from the tunnel's map. -/
def packetConnection.closeWithError (pc : packetConnection) (t : Tunnel) (err : Option String) :
    packetConnection × Tunnel :=
  if pc.closed then (pc, t)
  else
    let pc' := { pc with closed := true, closeError := err, ctxDone := true }
    (pc', removePacketConn t pc.id)

/-! ### Tunnel operations as a labelled step system -/

/-- The operations that can touch a hub tunnel's state. -/
inductive TOp : Type
  | serveInit : TOp
  | newPacketConn : Bool → TOp
  | sendPkt : Packet → Bool → TOp
  | closeT : TOp
  | removePC : Int → TOp
  | handleData : Packet → TOp
  | handleErr : Packet → TOp
  deriving Repr

/-- One state transition of a hub tunnel. -/
def tunnelStep (t : Tunnel) : TOp → Tunnel
  | .serveInit => serveInit t
  | .newPacketConn b => (NewPacketConn t b).1
  | .sendPkt p sel => (sendPacket t p sel).1
  | .closeT => t.Close
  | .removePC i => removePacketConn t i
  | .handleData p => handleDataPacket t p
  | .handleErr p => handleErrorPacket t p

/-- Run a list of operations left to right. -/
def tunnelRun (t : Tunnel) : List TOp → Tunnel
  | [] => t
  | op :: rest => tunnelRun (tunnelStep t op) rest

/-- The conn ids handed out by the successful `NewPacketConn` calls of a
run, in call order. -/
def tunnelRunIds (t : Tunnel) : List TOp → List Int
  | [] => []
  | op :: rest =>
    match op with
    | .newPacketConn b =>
      match (NewPacketConn t b).2 with
      | .ok pc => pc.id :: tunnelRunIds (NewPacketConn t b).1 rest
      | .error _ => tunnelRunIds (NewPacketConn t b).1 rest
    | _ => tunnelRunIds (tunnelStep t op) rest

/-- Reachability under tunnel operations. -/
def TReach (a b : Tunnel) : Prop :=
  Relation.ReflTransGen (fun x y => ∃ op, tunnelStep x op = y) a b

/-! ### Cluster-name parser (clusternameparser.go) -/

/-- Go `strings.Split(s, sep)` for a one-character separator.  The empty
string splits to `[""]`, and the result always has one more element than
the number of separators. -/
def splitGo (sep : Char) : List Char → List (List Char)
  | [] => [[]]
  | c :: rest =>
    if c = sep then [] :: splitGo sep rest
    else
      match splitGo sep rest with
      | [] => [[c]]
      | h :: t => (c :: h) :: t

/-- Embeds `clusterNameParserImplt.ParseClusterName` (clusternameparser.go):
split the request URI on `/`; error when fewer than two tokens result;
otherwise return token index 1 (the segment right after the first
slash, which may be empty). -/
def ParseClusterName (requestURI : List Char) : Except String (List Char) :=
  let urlparams := splitGo '/' requestURI
  if urlparams.length < 2 then
    .error ("requestURI format not correct, path less than 2: " ++ String.mk requestURI)
  else
    .ok (urlparams.getD 1 [])

/-- Modelled from the spec's words (for comparison with
`ParseClusterName`): return the first non-empty path segment of the
request URI, or an error when no such segment exists. -/
def parseClusterNameOfSpec (requestURI : List Char) : Except String (List Char) :=
  match (splitGo '/' requestURI).filter (fun s => decide (s ≠ [])) with
  | [] => .error "no non-empty path segment in requestURI"
  | h :: _ => .ok h

/-! ### Initial HTTP request serialization (server.go) -/

/-- The parts of Go `http.Request` that `sendInitialHTTPRequest` reads.
`requestURI` is `r.URL.RequestURI()`, `host` is `r.Host`, `header` is
the canonical-key header map (a Go map whose iteration order is
arbitrary; the claims proved below only use containment), and `body` is
the full contents of `r.Body` (an absent body reads as empty). -/
structure HTTPRequest : Type where
  method : List Char
  requestURI : List Char
  protoMajor : Nat
  protoMinor : Nat
  host : List Char
  header : List (List Char × List (List Char))
  body : List Char

/-- Go `http.Header.Get` on a canonical-key header map: the first value
stored under the key, or the empty string. -/
def headerGet (h : List (List Char × List (List Char))) (k : List Char) : List Char :=
  match alookup k h with
  | some vs => vs.headD []
  | none => []

/-- The one serialized header line for a name/value pair. -/
def headerLine (name value : List Char) : List Char :=
  name ++ ": ".toList ++ value ++ "\r\n".toList

/-- The request line built by `sendInitialHTTPRequest` (server.go):
`METHOD URI HTTP/<major>.<minor>` with a fallback to HTTP/1.1 when both
version numbers are zero. -/
def requestLineOf (r : HTTPRequest) : List Char :=
  let httpVersion : List Char :=
    if r.protoMajor = 0 ∧ r.protoMinor = 0 then "HTTP/1.1".toList
    else
      "HTTP/".toList ++ (Nat.repr r.protoMajor).toList ++ ".".toList
        ++ (Nat.repr r.protoMinor).toList
  r.method ++ " ".toList ++ r.requestURI ++ " ".toList ++ httpVersion ++ "\r\n".toList

/-- The byte sequence `httpHandler.sendInitialHTTPRequest` (server.go)
assembles into the DATA packet payload: request line, a synthesized
`Host:` header when `Header.Get("Host")` is empty, every header line,
the blank separator line, then the body bytes. -/
def serializeInitialRequest (r : HTTPRequest) : List Char :=
  let hostPart : List Char :=
    if headerGet r.header "Host".toList = [] then
      "Host: ".toList ++ r.host ++ "\r\n".toList
    else []
  let headerLines : List Char :=
    (r.header.map (fun nv => (nv.2.map (fun v => headerLine nv.1 v)).flatten)).flatten
  requestLineOf r ++ hostPart ++ headerLines ++ "\r\n".toList ++ r.body

/-! ### TunnelManager (tunnelmanager.go) -/

/-- Model of `TunnelManager`: the registry cluster-name → tunnel (the RWMutex is
erased). -/
structure TunnelManager : Type where
  tunnels : List (String × Tunnel)
  deriving DecidableEq, Repr

/-- Embeds `NewTunnelManager` (tunnelmanager.go). -/
def NewTunnelManager : TunnelManager := { tunnels := [] }

/-- Embeds `TunnelManager.NewTunnel` (tunnelmanager.go).  `tid` stands for the
value `generateTunnelID()` produced (a timestamp-based token), and
`ctxDone` for the state of the stream context handed in.  The middle
result is the newly created tunnel; the last result is the closed
predecessor when one was registered under the cluster name. -/
def TunnelManager.NewTunnel (tm : TunnelManager) (ctxDone : Bool)
    (clusterName tid : String) : TunnelManager × Tunnel × Option Tunnel :=
  let closedOld := (alookup clusterName tm.tunnels).map Tunnel.Close
  let t := freshTunnel tid clusterName ctxDone
  ({ tunnels := ainsert clusterName t tm.tunnels }, t, closedOld)

/-- Embeds `TunnelManager.GetTunnel` (tunnelmanager.go). -/
def TunnelManager.GetTunnel (tm : TunnelManager) (clusterName : String) : Option Tunnel :=
  alookup clusterName tm.tunnels

/-- Embeds `TunnelManager.RemoveTunnel` (tunnelmanager.go): conditional delete
keyed on the tunnel id. -/
def TunnelManager.RemoveTunnel (tm : TunnelManager) (clusterName tid : String) : TunnelManager :=
  match alookup clusterName tm.tunnels with
  | none => tm
  | some t =>
    if t.id = tid then { tunnels := aerase clusterName tm.tunnels } else tm

/-- Embeds `TunnelManager.Close` (tunnelmanager.go): close every tunnel and
reset the registry; the closed tunnels are returned for observation. -/
def TunnelManager.CloseAll (tm : TunnelManager) : TunnelManager × List Tunnel :=
  ({ tunnels := [] }, tm.tunnels.map (fun p => (p.2).Close))

/-- The operations that can touch the registry. -/
inductive TMOp : Type
  | newT : Bool → String → String → TMOp
  | removeT : String → String → TMOp
  | closeAllT : TMOp
  deriving Repr

/-- One registry transition. -/
def tmStep (tm : TunnelManager) : TMOp → TunnelManager
  | .newT ctxDone clusterName tid => (tm.NewTunnel ctxDone clusterName tid).1
  | .removeT clusterName tid => tm.RemoveTunnel clusterName tid
  | .closeAllT => (tm.CloseAll).1

/-- Run registry operations left to right from a starting state. -/
def tmRun (tm : TunnelManager) : List TMOp → TunnelManager
  | [] => tm
  | op :: rest => tmRun (tmStep tm op) rest

end server

/-! ## Agent runtime (pkg/agent) -/

namespace agent

open v1

/-- Buffer size of the shared outgoing channel
(packetconnmanager.go, `outgoingChanSize`). -/
def outgoingChanSize : Nat := 150

/-- Buffer size of each connection's incoming channel
(packetconnmanager.go, `incomingChanSize`). -/
def incomingChanSize : Nat := 150

/-- Agent-side `packetConn` (packetconnmanager.go).  The local
`net.Conn` is reduced to its closed flag; `closeOnce` is implicit in
the functional update. -/
structure packetConn : Type where
  id : Int
  connClosed : Bool
  ctxDone : Bool
  incoming : List Packet
  incomingClosed : Bool
  deriving DecidableEq, Repr

/-- Model of `packetConnManagerImpl` (packetconnmanager.go): the id → connection
map, the shared outgoing queue, and the manager context. -/
structure packetConnManagerImpl : Type where
  localConnections : List (Int × packetConn)
  outgoing : List Packet
  outgoingClosed : Bool
  ctxDone : Bool
  deriving DecidableEq, Repr

/-- Resolution of the environment interactions inside `Dispatch`:
`dialErr` is the outcome of `net.DialTimeout` (`none` = success),
`retryFrees` tells whether the 100 ms retry of `safeSendToConnection`
finds room (a concurrent drain by the connection writer), and
`initCancel` picks the ctx-done case of the initial-enqueue select when
it races the ready send. -/
structure DispatchEnv : Type where
  dialErr : Option String
  retryFrees : Bool
  initCancel : Bool
  deriving DecidableEq, Repr

/-- Embeds `packetConnManagerImpl.removeConnection` (packetconnmanager.go):
absent id → return with nothing touched; present id → cancel the
connection context, close the local conn and (once) the incoming
channel, then delete the map entry.  The per-connection effects act on
the entry being deleted, so the surviving state change is the delete. -/
def removeConnection (m : packetConnManagerImpl) (connID : Int) : packetConnManagerImpl :=
  match alookup connID m.localConnections with
  | none => m
  | some _ => { m with localConnections := aerase connID m.localConnections }

/-- Embeds `packetConnManagerImpl.safeSendToConnection` (packetconnmanager.go).
A closed incoming channel makes the select's send case panic, which the
recover turns into a nil return; otherwise: non-blocking send, the two
ctx-done cases, the closed-flag re-check, and the 100 ms retry. -/
def safeSendToConnection (env : DispatchEnv) (mgrCtxDone : Bool) (lc : packetConn)
    (p : Packet) : packetConn × Except String Unit :=
  if lc.incomingClosed then
    (lc, .ok ())
  else if lc.incoming.length < incomingChanSize then
    ({ lc with incoming := lc.incoming ++ [p] }, .ok ())
  else if lc.ctxDone then
    (lc, .error ("local connection " ++ toString lc.id ++ " is closing"))
  else if mgrCtxDone then
    (lc, .error "local connection manager is closing")
  else if env.retryFrees then
    ({ lc with incoming := lc.incoming ++ [p] }, .ok ())
  else
    (lc, .error ("timeout sending packet to connection " ++ toString lc.id))

/-- Embeds `packetConnManagerImpl.createConnection` (packetconnmanager.go):
dial the local proxy socket; on failure push a best-effort ERROR packet
toward the Hub and return the dial error; on success register a fresh
connection whose incoming queue already holds the triggering packet
(the enqueue happens before the worker goroutines start). -/
def createConnection (env : DispatchEnv) (m : packetConnManagerImpl) (p : Packet) :
    packetConnManagerImpl × Except String Unit :=
  match env.dialErr with
  | some msg =>
    let errorPacket : Packet :=
      { connId := p.connId
        code := .error
        data := []
        errorMessage := "Connection failed: " ++ msg }
    let m' :=
      if m.ctxDone then m
      else if m.outgoing.length < outgoingChanSize then
        { m with outgoing := m.outgoing ++ [errorPacket] }
      else m
    (m', .error ("failed to dial for conn_id " ++ toString p.connId ++ ": " ++ msg))
  | none =>
    if m.ctxDone ∧ env.initCancel then
      (m, .error ("failed to send initial packet to connection " ++ toString p.connId
        ++ ": context cancelled"))
    else
      let lc : packetConn :=
        { id := p.connId
          connClosed := false
          ctxDone := false
          incoming := [p]
          incomingClosed := false }
      ({ m with localConnections := ainsert p.connId lc m.localConnections }, .ok ())

/-- Embeds `packetConnManagerImpl.handleDataPacket` (packetconnmanager.go):
unknown id → create the connection lazily; known id → safe send into
its incoming queue. -/
def handleDataPacket (env : DispatchEnv) (m : packetConnManagerImpl) (p : Packet) :
    packetConnManagerImpl × Except String Unit :=
  match alookup p.connId m.localConnections with
  | none => createConnection env m p
  | some lc =>
    ({ m with localConnections :=
        ainsert p.connId (safeSendToConnection env m.ctxDone lc p).1 m.localConnections },
      (safeSendToConnection env m.ctxDone lc p).2)

/-- Embeds `packetConnManagerImpl.handleErrorPacket` (packetconnmanager.go):
log, remove the connection if it exists, and always return nil. -/
def handleErrorPacket (m : packetConnManagerImpl) (p : Packet) :
    packetConnManagerImpl × Except String Unit :=
  (removeConnection m p.connId, .ok ())

/-- Embeds `packetConnManagerImpl.Dispatch` (packetconnmanager.go): DATA and
ERROR are handled; every other code (including DRAIN) returns the
unknown-control-code error. -/
def Dispatch (env : DispatchEnv) (m : packetConnManagerImpl) (p : Packet) :
    packetConnManagerImpl × Except String Unit :=
  match p.code with
  | .data => handleDataPacket env m p
  | .error => handleErrorPacket m p
  | _ => (m, .error "unknown control code")

/-- One packet's worth of `Agent.processIncoming` (part_008): dispatch,
and only when dispatch fails synthesize the ERROR reply packet sent back
to the Hub for that conn id. -/
def processIncomingPacket (env : DispatchEnv) (m : packetConnManagerImpl) (p : Packet) :
    packetConnManagerImpl × Option Packet :=
  match (Dispatch env m p).2 with
  | .ok _ => ((Dispatch env m p).1, none)
  | .error e =>
    ((Dispatch env m p).1,
      some { connId := p.connId, code := .error, data := [], errorMessage := e })

end agent

/-- The consecutive integers `a+1, a+2, …, a+n` (the shape the conn-id
sequence of a tunnel is proved to take). -/
def intRange (a : Int) (n : Nat) : List Int :=
  (List.range n).map (fun k : Nat => a + 1 + (k : Int))

/-! ## Helper lemmas -/

theorem alookup_ainsert_self {κ α : Type} [DecidableEq κ] (k : κ) (v : α) (l : List (κ × α)) :
    alookup k (ainsert k v l) = some v := by
  simp [ainsert, alookup]

theorem alookup_aerase_self {κ α : Type} [DecidableEq κ] (k : κ) (l : List (κ × α)) :
    alookup k (aerase k l) = none := by
  induction l with
  | nil => rfl
  | cons hd tl ih =>
    by_cases h : hd.1 = k
    · simpa [aerase, h] using ih
    · simpa [aerase, alookup, h] using ih

theorem akeys_aerase_nodup {κ α : Type} [DecidableEq κ] (k : κ) (l : List (κ × α))
    (h : (akeys l).Nodup) : (akeys (aerase k l)).Nodup := by
  have hsub : List.Sublist (aerase k l) l := List.filter_sublist l
  exact h.sublist (hsub.map Prod.fst)

theorem not_mem_akeys_aerase {κ α : Type} [DecidableEq κ] (k : κ) (l : List (κ × α)) :
    k ∉ akeys (aerase k l) := by
  intro hk
  simp only [akeys, aerase, List.mem_map, List.mem_filter] at hk
  obtain ⟨p, ⟨-, hp⟩, rfl⟩ := hk
  simp at hp

theorem akeys_ainsert_nodup {κ α : Type} [DecidableEq κ] (k : κ) (v : α) (l : List (κ × α))
    (h : (akeys l).Nodup) : (akeys (ainsert k v l)).Nodup := by
  simp only [ainsert, akeys, List.map_cons]
  exact List.nodup_cons.2 ⟨not_mem_akeys_aerase k l, akeys_aerase_nodup k l h⟩

theorem wrap64_eq_self {x : Int} (h1 : -(2 ^ 63) ≤ x) (h2 : x < 2 ^ 63) :
    server.wrap64 x = x := by
  unfold server.wrap64
  have h0 : (0 : Int) ≤ x + 2 ^ 63 := by linarith
  have hlt : x + 2 ^ 63 < 2 ^ 64 := by
    have : (2 : Int) ^ 64 = 2 ^ 63 + 2 ^ 63 := by norm_num
    linarith
  rw [Int.emod_eq_of_lt h0 hlt]
  ring

/-! ## Claim theorems -/

namespace server

open v1

/-- Claim C1: `NewPacketConn` returns an error exactly when the tunnel
is not yet initialized (`Serve` has not run) or is closed; otherwise it
returns a packet connection registered in the tunnel's packet-connection
map under the freshly assigned conn id (the incremented counter). -/
theorem c1_NewPacketConn_error_iff (t : Tunnel) (b : Bool) :
    ((∃ e, (NewPacketConn t b).2 = .error e) ↔ (t.inited = false ∨ t.closed = true))
    ∧ (t.inited = true → t.closed = false →
        ∃ pc, (NewPacketConn t b).2 = .ok pc
          ∧ pc.id = wrap64 (t.nextPacketConnID + 1)
          ∧ alookup pc.id (NewPacketConn t b).1.packetConns = some pc) := by
  by_cases hi : t.inited = false
  · constructor
    · simp [NewPacketConn, hi]
    · intro hin
      rw [hin] at hi
      simp at hi
  · have hi' : t.inited = true := by
      cases h : t.inited
      · exact absurd h hi
      · rfl
    by_cases hc : t.closed = true
    · constructor
      · simp [NewPacketConn, hi', hc]
      · intro _ hcf
        rw [hcf] at hc
        simp at hc
    · have hc' : t.closed = false := by
        cases h : t.closed
        · rfl
        · exact absurd h hc
      constructor
      · simp [NewPacketConn, hi', hc']
      · intro _ _
        refine ⟨⟨wrap64 (t.nextPacketConnID + 1), b, false, none, []⟩, ?_, rfl, ?_⟩
        · simp [NewPacketConn, hi', hc']
        · simp [NewPacketConn, hi', hc', alookup_ainsert_self]

/-- Witness for C1 at concrete tunnels: a fresh (never-served) tunnel
rejects the call, and a served tunnel hands out id 1, registered. -/
theorem c1_NewPacketConn_witness :
    ((∃ e, (NewPacketConn (freshTunnel "tunnel-1" "c" false) false).2 = .error e)
      ↔ ((freshTunnel "tunnel-1" "c" false).inited = false
          ∨ (freshTunnel "tunnel-1" "c" false).closed = true))
    ∧ (∃ pc,
        (NewPacketConn (serveInit (freshTunnel "tunnel-1" "c" false)) false).2 = .ok pc
        ∧ pc.id = wrap64 ((serveInit (freshTunnel "tunnel-1" "c" false)).nextPacketConnID + 1)
        ∧ alookup pc.id
            (NewPacketConn (serveInit (freshTunnel "tunnel-1" "c" false)) false).1.packetConns
            = some pc) :=
  ⟨(c1_NewPacketConn_error_iff (freshTunnel "tunnel-1" "c" false) false).1,
    (c1_NewPacketConn_error_iff (serveInit (freshTunnel "tunnel-1" "c" false)) false).2 rfl rfl⟩

/-- Claim C4: on an initialized live tunnel, `sendPacket` never blocks:
a full outgoing queue returns the backpressure error with the state
untouched, and a queue with room enqueues the packet and succeeds. -/
theorem c4_sendPacket_nonblocking (t : Tunnel) (p : Packet) (q : List Packet) (sel : Bool)
    (hin : t.inited = true) (hq : t.outgoingChan = some q)
    (hctx : t.ctxDone = false) (hcl : t.outClosed = false) :
    (outgoingCap ≤ q.length →
      sendPacket t p sel = (t, .err "outgoing channel is full"))
    ∧ (q.length < outgoingCap →
      sendPacket t p sel = ({ t with outgoingChan := some (q ++ [p]) }, .ok)) := by
  constructor
  · intro hfull
    have hnr : ¬ q.length < outgoingCap := by omega
    simp [sendPacket, hin, hq, hctx, hcl, hnr]
  · intro hroom
    simp [sendPacket, hin, hq, hctx, hcl, hroom]

/-- Witness for C4: a queue holding `outgoingCap` packets rejects the
send with the queue-full error; the empty queue accepts it. -/
theorem c4_sendPacket_witness :
    sendPacket
      { serveInit (freshTunnel "t" "c" false) with
          outgoingChan := some (List.replicate outgoingCap (⟨1, .data, [], ""⟩ : Packet)) }
      ⟨1, .data, [], ""⟩ true
      = ({ serveInit (freshTunnel "t" "c" false) with
            outgoingChan := some (List.replicate outgoingCap (⟨1, .data, [], ""⟩ : Packet)) },
          .err "outgoing channel is full")
    ∧ sendPacket (serveInit (freshTunnel "t" "c" false)) ⟨1, .data, [], ""⟩ true
      = ({ serveInit (freshTunnel "t" "c" false) with
            outgoingChan := some ([] ++ [(⟨1, .data, [], ""⟩ : Packet)]) }, .ok) :=
  ⟨(c4_sendPacket_nonblocking _ _ _ true rfl rfl rfl rfl).1 (by simp),
    (c4_sendPacket_nonblocking _ _ _ true rfl rfl rfl rfl).2 (by simp [outgoingCap])⟩

/-- Claim C5: close is idempotent on all three objects — a hub tunnel
(`Tunnel.Close` on a closed tunnel changes nothing), a hub packet
connection (`closeWithError` on a closed connection changes nothing),
and an agent connection (`removeConnection` of an absent id changes
nothing); in each case the repeated close equals the single close. -/
theorem c5_close_idempotent :
    (∀ t : Tunnel, t.closed = true → Tunnel.Close t = t)
    ∧ (∀ t : Tunnel, Tunnel.Close (Tunnel.Close t) = Tunnel.Close t)
    ∧ (∀ (pc : packetConnection) (t : Tunnel) (e : Option String),
        pc.closed = true → packetConnection.closeWithError pc t e = (pc, t))
    ∧ (∀ (pc : packetConnection) (t : Tunnel) (e e' : Option String),
        packetConnection.closeWithError
          (packetConnection.closeWithError pc t e).1
          (packetConnection.closeWithError pc t e).2 e'
          = packetConnection.closeWithError pc t e)
    ∧ (∀ (m : agent.packetConnManagerImpl) (i : Int),
        alookup i m.localConnections = none → agent.removeConnection m i = m)
    ∧ (∀ (m : agent.packetConnManagerImpl) (i : Int),
        agent.removeConnection (agent.removeConnection m i) i
          = agent.removeConnection m i) := by
  have hclosed : ∀ t : Tunnel, (Tunnel.Close t).closed = true := by
    intro t
    by_cases h : t.closed = true
    · simp [Tunnel.Close, h]
    · simp [Tunnel.Close, h]
  have h1 : ∀ t : Tunnel, t.closed = true → Tunnel.Close t = t := by
    intro t h
    simp [Tunnel.Close, h]
  have h3 : ∀ (pc : packetConnection) (t : Tunnel) (e : Option String),
      pc.closed = true → packetConnection.closeWithError pc t e = (pc, t) := by
    intro pc t e h
    simp [packetConnection.closeWithError, h]
  have h5 : ∀ (m : agent.packetConnManagerImpl) (i : Int),
      alookup i m.localConnections = none → agent.removeConnection m i = m := by
    intro m i h
    simp [agent.removeConnection, h]
  refine ⟨h1, fun t => h1 _ (hclosed t), h3, ?_, h5, ?_⟩
  · intro pc t e e'
    by_cases h : pc.closed = true
    · rw [h3 pc t e h]
      exact h3 pc t e' h
    · have hf : pc.closed = false := by
        cases hc : pc.closed
        · rfl
        · exact absurd hc h
      apply h3
      simp [packetConnection.closeWithError, hf]
  · intro m i
    cases hl : alookup i m.localConnections with
    | none =>
      rw [h5 m i hl]
      exact h5 m i hl
    | some lc =>
      apply h5
      simp [agent.removeConnection, hl, alookup_aerase_self]

/-- Witness for C5 at concrete states: a closed tunnel, a closed packet
connection, and a manager with an empty connection map. -/
theorem c5_close_idempotent_witness :
    Tunnel.Close { freshTunnel "t" "c" false with closed := true }
      = { freshTunnel "t" "c" false with closed := true }
    ∧ packetConnection.closeWithError ⟨1, true, true, none, []⟩ (freshTunnel "t" "c" false) none
      = (⟨1, true, true, none, []⟩, freshTunnel "t" "c" false)
    ∧ agent.removeConnection ⟨[], [], false, false⟩ 1 = ⟨[], [], false, false⟩ :=
  ⟨c5_close_idempotent.1 _ rfl,
    c5_close_idempotent.2.2.1 _ _ none rfl,
    c5_close_idempotent.2.2.2.2.1 _ 1 rfl⟩

/-- Claim C9: `packetConnection.Send` on an open connection forwards to
the tunnel exactly the caller's packet with its `ConnId` overwritten by
the connection's id, leaving code, payload and error message untouched;
on a closed connection it errors and forwards nothing, leaving the
tunnel untouched. -/
theorem c9_Send_frame (pc : packetConnection) (t : Tunnel) (p : Packet) (sel : Bool) :
    (pc.closed = false →
      ∃ p', (packetConnection.Send pc t p sel).2.1 = some p'
        ∧ p'.connId = pc.id ∧ p'.code = p.code ∧ p'.data = p.data
        ∧ p'.errorMessage = p.errorMessage
        ∧ (packetConnection.Send pc t p sel).1 = (sendPacket t p' sel).1
        ∧ (packetConnection.Send pc t p sel).2.2 = (sendPacket t p' sel).2)
    ∧ (pc.closed = true →
        (packetConnection.Send pc t p sel).1 = t
        ∧ (packetConnection.Send pc t p sel).2.1 = none
        ∧ ∃ e, (packetConnection.Send pc t p sel).2.2 = .err e) := by
  constructor
  · intro h
    refine ⟨{ p with connId := pc.id }, ?_, rfl, rfl, rfl, rfl, ?_, ?_⟩ <;>
      simp [packetConnection.Send, h]
  · intro h
    refine ⟨?_, ?_, "packet connection is closed: " ++ (pc.closeError.getD "<nil>"), ?_⟩ <;>
      simp [packetConnection.Send, h]

/-- Witness for C9 at an open and at a closed packet connection. -/
theorem c9_Send_frame_witness :
    (∃ p', (packetConnection.Send ⟨7, false, false, none, []⟩
        (serveInit (freshTunnel "t" "c" false)) ⟨1, .data, ['x'], ""⟩ true).2.1 = some p'
      ∧ p'.connId = (7 : Int) ∧ p'.code = ControlCode.data ∧ p'.data = ['x']
      ∧ p'.errorMessage = ""
      ∧ (packetConnection.Send ⟨7, false, false, none, []⟩
          (serveInit (freshTunnel "t" "c" false)) ⟨1, .data, ['x'], ""⟩ true).1
        = (sendPacket (serveInit (freshTunnel "t" "c" false)) p' true).1
      ∧ (packetConnection.Send ⟨7, false, false, none, []⟩
          (serveInit (freshTunnel "t" "c" false)) ⟨1, .data, ['x'], ""⟩ true).2.2
        = (sendPacket (serveInit (freshTunnel "t" "c" false)) p' true).2)
    ∧ ((packetConnection.Send ⟨7, false, true, some "boom", []⟩
          (serveInit (freshTunnel "t" "c" false)) ⟨1, .data, ['x'], ""⟩ true).1
        = serveInit (freshTunnel "t" "c" false)
      ∧ (packetConnection.Send ⟨7, false, true, some "boom", []⟩
          (serveInit (freshTunnel "t" "c" false)) ⟨1, .data, ['x'], ""⟩ true).2.1 = none
      ∧ ∃ e, (packetConnection.Send ⟨7, false, true, some "boom", []⟩
          (serveInit (freshTunnel "t" "c" false)) ⟨1, .data, ['x'], ""⟩ true).2.2 = .err e) :=
  ⟨(c9_Send_frame ⟨7, false, false, none, []⟩ _ ⟨1, .data, ['x'], ""⟩ true).1 rfl,
    (c9_Send_frame ⟨7, false, true, some "boom", []⟩ _ ⟨1, .data, ['x'], ""⟩ true).2 rfl⟩

theorem splitGo_ne_nil (sep : Char) (l : List Char) : splitGo sep l ≠ [] := by
  cases l with
  | nil => simp [splitGo]
  | cons c rest =>
    by_cases h : c = sep
    · simp [splitGo, h]
    · simp only [splitGo, if_neg h]
      cases splitGo sep rest <;> simp

theorem splitGo_no_sep {sep : Char} {l : List Char} (h : sep ∉ l) :
    splitGo sep l = [l] := by
  induction l with
  | nil => rfl
  | cons c rest ih =>
    have hc : ¬ c = sep := fun hcs => h (hcs ▸ List.mem_cons_self c rest)
    have hrest : sep ∉ rest := fun hm => h (List.mem_cons_of_mem c hm)
    simp [splitGo, hc, ih hrest]

theorem splitGo_first {sep : Char} {pre : List Char} (post : List Char) (h : sep ∉ pre) :
    splitGo sep (pre ++ sep :: post) = pre :: splitGo sep post := by
  induction pre with
  | nil => simp [splitGo]
  | cons c pre' ih =>
    have hc : ¬ c = sep := fun hcs => h (hcs ▸ List.mem_cons_self c pre')
    have hpre : sep ∉ pre' := fun hm => h (List.mem_cons_of_mem c hm)
    simp [splitGo, hc, ih hpre]

theorem splitGo_head_takeWhile (sep : Char) (l : List Char) :
    (splitGo sep l).head? = some (l.takeWhile (fun c => decide (c ≠ sep))) := by
  induction l with
  | nil => rfl
  | cons c rest ih =>
    by_cases h : c = sep
    · subst h
      simp [splitGo, List.takeWhile]
    · cases hsp : splitGo sep rest with
      | nil => exact absurd hsp (splitGo_ne_nil sep rest)
      | cons hd tl =>
        have ih' : hd = rest.takeWhile (fun c => decide (c ≠ sep)) := by
          rw [hsp] at ih
          simpa using ih
        have hc : (decide (c ≠ sep)) = true := by simp [h]
        simp [splitGo, h, hsp, List.takeWhile_cons, hc, ih']

/-- Counterexample for claim C6: the parser does not return the first
non-empty path segment.  On `"//foo"` the code returns the empty string
(while the first non-empty segment is `"foo"`), and on `"/"` the code
succeeds with the empty string even though no non-empty segment exists. -/
theorem c6_counterexample_parse :
    ParseClusterName "//foo".toList = .ok []
    ∧ parseClusterNameOfSpec "//foo".toList = .ok "foo".toList
    ∧ ParseClusterName "/".toList = .ok []
    ∧ parseClusterNameOfSpec "/".toList
        = .error "no non-empty path segment in requestURI" := by
  refine ⟨?_, ?_, ?_, ?_⟩ <;> rfl

/-- Claim C6 (amended): the parser returns the `/`-separated token
immediately after the first slash of the request URI — the first path
segment, which may be empty — and it returns an error exactly for URIs
that contain no slash at all. -/
theorem c6_amended_parse (pre post uri : List Char)
    (hpre : '/' ∉ pre) (huri : '/' ∉ uri) :
    ParseClusterName (pre ++ '/' :: post)
      = .ok (post.takeWhile (fun c => decide (c ≠ '/')))
    ∧ ∃ e, ParseClusterName uri = .error e := by
  constructor
  · cases hsp : splitGo '/' post with
    | nil => exact absurd hsp (splitGo_ne_nil '/' post)
    | cons hd tl =>
      have hh := splitGo_head_takeWhile '/' post
      rw [hsp] at hh
      simp only [List.head?, Option.some.injEq] at hh
      simp [ParseClusterName, splitGo_first post hpre, hsp, List.getD, hh]
  · exact ⟨"requestURI format not correct, path less than 2: " ++ String.mk uri,
      by simp [ParseClusterName, splitGo_no_sep huri]⟩

/-- Witness for the amended C6: `"/cluster-a/hello"` parses to
`cluster-a`, and a URI without a slash is rejected. -/
theorem c6_amended_parse_witness :
    ParseClusterName ([] ++ '/' :: "cluster-a/hello".toList)
      = .ok ("cluster-a/hello".toList.takeWhile (fun c => decide (c ≠ '/')))
    ∧ ∃ e, ParseClusterName "health".toList = .error e :=
  c6_amended_parse [] "cluster-a/hello".toList "health".toList (by decide) (by decide)

end server

namespace agent

open v1

/-- Claim C10: dispatching an inbound ERROR packet always returns nil —
for a known conn id the connection is removed, for an unknown one the
state is untouched — so the ingress worker, which only synthesizes a
reply ERROR packet when `Dispatch` fails, never answers an inbound
ERROR packet with an ERROR packet. -/
theorem c10_inbound_error_no_reply (env : DispatchEnv) (m : packetConnManagerImpl)
    (p : Packet) (hp : p.code = .error) :
    (Dispatch env m p).2 = .ok ()
    ∧ (processIncomingPacket env m p).2 = none
    ∧ (∀ lc, alookup p.connId m.localConnections = some lc →
        alookup p.connId (Dispatch env m p).1.localConnections = none)
    ∧ (alookup p.connId m.localConnections = none → (Dispatch env m p).1 = m) := by
  refine ⟨?_, ?_, ?_, ?_⟩
  · simp [Dispatch, hp, handleErrorPacket]
  · simp [processIncomingPacket, Dispatch, hp, handleErrorPacket]
  · intro lc hlc
    simp [Dispatch, hp, handleErrorPacket, removeConnection, hlc, alookup_aerase_self]
  · intro hnone
    simp [Dispatch, hp, handleErrorPacket, removeConnection, hnone]

/-- Witness for C10: an ERROR packet for the registered id 3 removes
the connection and produces no reply; one for the unknown id 9 changes
nothing and produces no reply. -/
theorem c10_inbound_error_no_reply_witness :
    ((Dispatch ⟨none, false, false⟩
        ⟨[(3, ⟨3, false, false, [], false⟩)], [], false, false⟩ ⟨3, .error, [], "x"⟩).2
      = .ok ()
    ∧ (processIncomingPacket ⟨none, false, false⟩
        ⟨[(3, ⟨3, false, false, [], false⟩)], [], false, false⟩ ⟨3, .error, [], "x"⟩).2
      = none
    ∧ (∀ lc, alookup (3 : Int)
          (⟨[(3, ⟨3, false, false, [], false⟩)], [], false, false⟩ :
            packetConnManagerImpl).localConnections = some lc →
        alookup (3 : Int)
          (Dispatch ⟨none, false, false⟩
            ⟨[(3, ⟨3, false, false, [], false⟩)], [], false, false⟩
            ⟨3, .error, [], "x"⟩).1.localConnections = none))
    ∧ ((Dispatch ⟨none, false, false⟩ ⟨[], [], false, false⟩ ⟨9, .error, [], "x"⟩).1
        = ⟨[], [], false, false⟩) :=
  ⟨⟨(c10_inbound_error_no_reply ⟨none, false, false⟩ _ ⟨3, .error, [], "x"⟩ rfl).1,
      (c10_inbound_error_no_reply ⟨none, false, false⟩ _ ⟨3, .error, [], "x"⟩ rfl).2.1,
      (c10_inbound_error_no_reply ⟨none, false, false⟩ _ ⟨3, .error, [], "x"⟩ rfl).2.2.1⟩,
    (c10_inbound_error_no_reply ⟨none, false, false⟩ _ ⟨9, .error, [], "x"⟩ rfl).2.2.2 rfl⟩

end agent

namespace server

open v1

theorem Tunnel_Close_closed (t : Tunnel) : (Tunnel.Close t).closed = true := by
  by_cases h : t.closed = true
  · simp [Tunnel.Close, h]
  · simp [Tunnel.Close, h]

theorem tmStep_nodup (tm : TunnelManager) (op : TMOp)
    (h : (akeys tm.tunnels).Nodup) : (akeys (tmStep tm op).tunnels).Nodup := by
  cases op with
  | newT b clusterName tid =>
    exact akeys_ainsert_nodup clusterName (freshTunnel tid clusterName b) tm.tunnels h
  | removeT clusterName tid =>
    simp only [tmStep, TunnelManager.RemoveTunnel]
    cases hl : alookup clusterName tm.tunnels with
    | none => exact h
    | some t =>
      by_cases hid : t.id = tid
      · simpa [hid] using akeys_aerase_nodup clusterName tm.tunnels h
      · simpa [hid] using h
  | closeAllT => simp [tmStep, TunnelManager.CloseAll, akeys]

theorem tmRun_nodup (ops : List TMOp) : ∀ tm : TunnelManager,
    (akeys tm.tunnels).Nodup → (akeys (tmRun tm ops).tunnels).Nodup := by
  induction ops with
  | nil => intro tm h; exact h
  | cons op rest ih => intro tm h; exact ih (tmStep tm op) (tmStep_nodup tm op h)

/-- Claim C3: every registry state reachable from a fresh
`TunnelManager` holds at most one tunnel per cluster name (its key list
has no duplicates), and `NewTunnel` for a name that already has a
tunnel closes that old tunnel and registers the fresh one in its
place. -/
theorem c3_one_tunnel_per_cluster :
    (∀ ops : List TMOp, (akeys (tmRun NewTunnelManager ops).tunnels).Nodup)
    ∧ (∀ (tm : TunnelManager) (b : Bool) (clusterName tid : String) (old : Tunnel),
        alookup clusterName tm.tunnels = some old →
        (tm.NewTunnel b clusterName tid).2.2 = some (Tunnel.Close old)
        ∧ (Tunnel.Close old).closed = true
        ∧ alookup clusterName (tm.NewTunnel b clusterName tid).1.tunnels
            = some (freshTunnel tid clusterName b)) := by
  constructor
  · intro ops
    exact tmRun_nodup ops NewTunnelManager (by simp [NewTunnelManager, akeys])
  · intro tm b clusterName tid old hl
    refine ⟨?_, Tunnel_Close_closed old, ?_⟩
    · simp [TunnelManager.NewTunnel, hl]
    · simp [TunnelManager.NewTunnel, alookup_ainsert_self]

/-- Witness for C3: a three-operation run (two of them replacing the
same cluster) keeps the keys duplicate-free, and a replacement on a
registry holding cluster `c` closes the old tunnel and registers the
new one. -/
theorem c3_one_tunnel_per_cluster_witness :
    (akeys (tmRun NewTunnelManager
        [TMOp.newT false "c" "t1", TMOp.newT false "c" "t2",
          TMOp.newT false "d" "t3"]).tunnels).Nodup
    ∧ ((TunnelManager.NewTunnel ⟨[("c", freshTunnel "t1" "c" false)]⟩ false "c" "t2").2.2
        = some (Tunnel.Close (freshTunnel "t1" "c" false))
      ∧ (Tunnel.Close (freshTunnel "t1" "c" false)).closed = true
      ∧ alookup "c"
          (TunnelManager.NewTunnel ⟨[("c", freshTunnel "t1" "c" false)]⟩
            false "c" "t2").1.tunnels
        = some (freshTunnel "t2" "c" false)) :=
  ⟨c3_one_tunnel_per_cluster.1
      [TMOp.newT false "c" "t1", TMOp.newT false "c" "t2", TMOp.newT false "d" "t3"],
    c3_one_tunnel_per_cluster.2 ⟨[("c", freshTunnel "t1" "c" false)]⟩ false "c" "t2"
      (freshTunnel "t1" "c" false) rfl⟩

theorem tunnelStep_closed (t : Tunnel) (op : TOp) (h : t.closed = true) :
    (tunnelStep t op).closed = true := by
  cases op with
  | serveInit => simpa [tunnelStep, server.serveInit] using h
  | newPacketConn b =>
    by_cases hi : t.inited = false
    · simpa [tunnelStep, NewPacketConn, hi] using h
    · have hi' : t.inited = true := by
        cases hb : t.inited
        · exact absurd hb hi
        · rfl
      simp [tunnelStep, NewPacketConn, hi', h]
  | sendPkt p sel =>
    simp only [tunnelStep, sendPacket]
    split
    · exact h
    · split
      · exact h
      · split
        · split
          · split <;> exact h
          · exact h
        · split
          · split <;> exact h
          · split
            · exact h
            · exact h
  | closeT => exact Tunnel_Close_closed t
  | removePC i => simpa [tunnelStep, removePacketConn] using h
  | handleData p =>
    simp only [tunnelStep, handleDataPacket]
    split
    · split
      · exact h
      · split
        · simpa [updatePC] using h
        · exact h
    · split
      · exact h
      · split
        · exact h
        · split <;> exact h
  | handleErr p =>
    simp only [tunnelStep, handleErrorPacket]
    split
    · split
      · exact h
      · split
        · simpa [updatePC] using h
        · exact h
    · exact h

theorem TReach_closed {a b : Tunnel} (hr : TReach a b) (h : a.closed = true) :
    b.closed = true := by
  induction hr with
  | refl => exact h
  | tail _ hstep ih =>
    obtain ⟨op, rfl⟩ := hstep
    exact tunnelStep_closed _ op ih

theorem handleIncoming_drain (pkts : List Packet) : ∀ t : Tunnel,
    (∃ p ∈ pkts, p.code = ControlCode.drain) →
    (handleIncoming t pkts).2 = .drainErr := by
  induction pkts with
  | nil => intro t h; simp at h
  | cons p rest ih =>
    intro t h
    cases hpc : p.code with
    | data =>
      have hrest : ∃ q ∈ rest, q.code = ControlCode.drain := by
        obtain ⟨q, hq, hcode⟩ := h
        rcases List.mem_cons.1 hq with hqp | hmem
        · subst hqp
          rw [hpc] at hcode
          simp at hcode
        · exact ⟨q, hmem, hcode⟩
      simpa [handleIncoming, hpc] using ih (handleDataPacket t p) hrest
    | error =>
      have hrest : ∃ q ∈ rest, q.code = ControlCode.drain := by
        obtain ⟨q, hq, hcode⟩ := h
        rcases List.mem_cons.1 hq with hqp | hmem
        · subst hqp
          rw [hpc] at hcode
          simp at hcode
        · exact ⟨q, hmem, hcode⟩
      simpa [handleIncoming, hpc] using ih (handleErrorPacket t p) hrest
    | drain => simp [handleIncoming, hpc]
    | other n =>
      have hrest : ∃ q ∈ rest, q.code = ControlCode.drain := by
        obtain ⟨q, hq, hcode⟩ := h
        rcases List.mem_cons.1 hq with hqp | hmem
        · subst hqp
          rw [hpc] at hcode
          simp at hcode
        · exact ⟨q, hmem, hcode⟩
      simpa [handleIncoming, hpc] using ih t hrest

/-- Claim C8: a packet list containing a DRAIN makes the reader loop
return the distinguished drain error; the `Serve` teardown then closes
the tunnel, and in every state reachable from the teardown the tunnel
stays closed and `NewPacketConn` fails without registering anything. -/
theorem c8_drain_teardown (t : Tunnel) (pkts : List Packet)
    (h : ∃ p ∈ pkts, p.code = ControlCode.drain) :
    (handleIncoming (serveInit t) pkts).2 = .drainErr
    ∧ (serveReaderRun t pkts).1.closed = true
    ∧ (∀ s, TReach (serveReaderRun t pkts).1 s →
        s.closed = true
        ∧ ∀ b, (NewPacketConn s b).1 = s ∧ ∃ e, (NewPacketConn s b).2 = .error e) := by
  refine ⟨handleIncoming_drain pkts (serveInit t) h, Tunnel_Close_closed _, ?_⟩
  intro s hreach
  have hclosed : s.closed = true := TReach_closed hreach (Tunnel_Close_closed _)
  refine ⟨hclosed, ?_⟩
  intro b
  by_cases hi : s.inited = false
  · exact ⟨by simp [NewPacketConn, hi],
      "connection not initialized", by simp [NewPacketConn, hi]⟩
  · have hi' : s.inited = true := by
      cases hb : s.inited
      · exact absurd hb hi
      · rfl
    exact ⟨by simp [NewPacketConn, hi', hclosed],
      "connection is closed", by simp [NewPacketConn, hi', hclosed]⟩

/-- Witness for C8 at a concrete drain trace: one DATA packet followed
by the DRAIN control packet. -/
theorem c8_drain_teardown_witness :
    (handleIncoming (serveInit (freshTunnel "t" "c" false))
        [⟨1, .data, ['x'], ""⟩, ⟨0, .drain, [], ""⟩]).2 = .drainErr
    ∧ (serveReaderRun (freshTunnel "t" "c" false)
        [⟨1, .data, ['x'], ""⟩, ⟨0, .drain, [], ""⟩]).1.closed = true
    ∧ (∀ s, TReach (serveReaderRun (freshTunnel "t" "c" false)
          [⟨1, .data, ['x'], ""⟩, ⟨0, .drain, [], ""⟩]).1 s →
        s.closed = true
        ∧ ∀ b, (NewPacketConn s b).1 = s ∧ ∃ e, (NewPacketConn s b).2 = .error e) :=
  c8_drain_teardown (freshTunnel "t" "c" false)
    [⟨1, .data, ['x'], ""⟩, ⟨0, .drain, [], ""⟩] (by simp)

theorem mid_decomp {α : Type} {l L : List α} (h : l <:+: L) :
    ∃ s t, s ++ l ++ t = L := h

/-- Claim C7: for a request carrying a real protocol version, the
serialized initial request begins with the original
`METHOD URI HTTP/<major>.<minor>` request line, contains a synthesized
`Host:` header when the original header set lacks one, contains every
original header line, and ends with the body appended after the
header/body separator. -/
theorem c7_initial_request_serialization (r : HTTPRequest)
    (hv : ¬(r.protoMajor = 0 ∧ r.protoMinor = 0)) :
    (∃ rest, serializeInitialRequest r
      = r.method ++ " ".toList ++ r.requestURI ++ " ".toList ++ "HTTP/".toList
        ++ (Nat.repr r.protoMajor).toList ++ ".".toList ++ (Nat.repr r.protoMinor).toList
        ++ "\r\n".toList ++ rest)
    ∧ (headerGet r.header "Host".toList = [] →
        ∃ l rgt, serializeInitialRequest r
          = l ++ ("Host: ".toList ++ r.host ++ "\r\n".toList) ++ rgt)
    ∧ (∀ name values, (name, values) ∈ r.header → ∀ v ∈ values,
        ∃ l rgt, serializeInitialRequest r = l ++ headerLine name v ++ rgt)
    ∧ (∃ front, serializeInitialRequest r = front ++ "\r\n".toList ++ r.body) := by
  refine ⟨?_, ?_, ?_, ?_⟩
  · refine ⟨(if headerGet r.header "Host".toList = [] then
        "Host: ".toList ++ r.host ++ "\r\n".toList else [])
      ++ (r.header.map (fun nv => (nv.2.map (fun v => headerLine nv.1 v)).flatten)).flatten
      ++ "\r\n".toList ++ r.body, ?_⟩
    simp [serializeInitialRequest, requestLineOf, hv, List.append_assoc]
  · intro hh
    refine ⟨requestLineOf r,
      (r.header.map (fun nv => (nv.2.map (fun v => headerLine nv.1 v)).flatten)).flatten
        ++ "\r\n".toList ++ r.body, ?_⟩
    simp at hh
    simp [serializeInitialRequest, hh, List.append_assoc]
  · intro name values hmem v hval
    have h1 : headerLine name v <:+: (values.map (fun v => headerLine name v)).flatten :=
      List.infix_of_mem_flatten (List.mem_map_of_mem _ hval)
    have h2 : (values.map (fun v => headerLine name v)).flatten
        <:+: (r.header.map (fun nv => (nv.2.map (fun v => headerLine nv.1 v)).flatten)).flatten :=
      List.infix_of_mem_flatten (List.mem_map_of_mem _ hmem)
    obtain ⟨s, tl, hst⟩ := mid_decomp (h1.trans h2)
    refine ⟨requestLineOf r
      ++ (if headerGet r.header "Host".toList = [] then
          "Host: ".toList ++ r.host ++ "\r\n".toList else [])
      ++ s, tl ++ "\r\n".toList ++ r.body, ?_⟩
    simp only [serializeInitialRequest]
    rw [← hst]
    simp [List.append_assoc]
  · refine ⟨requestLineOf r
      ++ (if headerGet r.header "Host".toList = [] then
          "Host: ".toList ++ r.host ++ "\r\n".toList else [])
      ++ (r.header.map (fun nv => (nv.2.map (fun v => headerLine nv.1 v)).flatten)).flatten,
      ?_⟩
    simp [serializeInitialRequest, List.append_assoc]

/-- Witness for C7 at a concrete `GET /c/x HTTP/1.1` request with one
header and a body. -/
theorem c7_initial_request_serialization_witness :
    (∃ rest, serializeInitialRequest
        ⟨"GET".toList, "/c/x".toList, 1, 1, "example.com".toList,
          [("Accept".toList, ["*".toList])], "body".toList⟩
      = "GET".toList ++ " ".toList ++ "/c/x".toList ++ " ".toList ++ "HTTP/".toList
        ++ (Nat.repr 1).toList ++ ".".toList ++ (Nat.repr 1).toList
        ++ "\r\n".toList ++ rest)
    ∧ (headerGet [("Accept".toList, ["*".toList])] "Host".toList = [] →
        ∃ l rgt, serializeInitialRequest
            ⟨"GET".toList, "/c/x".toList, 1, 1, "example.com".toList,
              [("Accept".toList, ["*".toList])], "body".toList⟩
          = l ++ ("Host: ".toList ++ "example.com".toList ++ "\r\n".toList) ++ rgt)
    ∧ (∀ name values, (name, values) ∈ [("Accept".toList, ["*".toList])] → ∀ v ∈ values,
        ∃ l rgt, serializeInitialRequest
            ⟨"GET".toList, "/c/x".toList, 1, 1, "example.com".toList,
              [("Accept".toList, ["*".toList])], "body".toList⟩
          = l ++ headerLine name v ++ rgt)
    ∧ (∃ front, serializeInitialRequest
          ⟨"GET".toList, "/c/x".toList, 1, 1, "example.com".toList,
            [("Accept".toList, ["*".toList])], "body".toList⟩
        = front ++ "\r\n".toList ++ "body".toList) :=
  c7_initial_request_serialization
    ⟨"GET".toList, "/c/x".toList, 1, 1, "example.com".toList,
      [("Accept".toList, ["*".toList])], "body".toList⟩ (by decide)

end server

theorem intRange_succ (a : Int) (n : Nat) :
    intRange a (n + 1) = (a + 1) :: intRange (a + 1) n := by
  rw [intRange, intRange, List.range_succ_eq_map, List.map_cons, List.map_map]
  refine List.cons_eq_cons.mpr ⟨by norm_num, ?_⟩
  apply List.map_congr_left
  intro k _
  simp only [Function.comp_apply]
  push_cast
  ring

theorem intRange_cons {a : Int} {L : List Int} (h : L = intRange (a + 1) L.length) :
    (a + 1) :: L = intRange a (L.length + 1) := by
  rw [intRange_succ]
  exact congrArg _ h

theorem intRange_head (a : Int) (n : Nat) :
    (intRange a n).head? = if n = 0 then none else some (a + 1) := by
  cases n with
  | zero => rfl
  | succ m => simp [intRange_succ]

theorem intRange_chain (a : Int) (n : Nat) :
    (intRange a n).Chain' (· < ·) := by
  induction n generalizing a with
  | zero => simp [intRange]
  | succ m ih =>
    rw [intRange_succ, List.chain'_cons']
    refine ⟨?_, ih (a + 1)⟩
    intro y hy
    rw [intRange_head] at hy
    rcases Nat.eq_zero_or_pos m with hm | hm
    · simp [hm] at hy
    · have hm' : ¬ m = 0 := by omega
      simp [hm'] at hy
      omega

theorem intRange_nodup (a : Int) (n : Nat) : (intRange a n).Nodup := by
  have hp : (intRange a n).Pairwise (· < ·) :=
    (List.chain'_iff_pairwise).1 (intRange_chain a n)
  exact hp.imp (fun h => ne_of_lt h)

namespace server

open v1

theorem sendPacket_next (t : Tunnel) (p : Packet) (sel : Bool) :
    (sendPacket t p sel).1.nextPacketConnID = t.nextPacketConnID := by
  simp only [sendPacket]
  repeat first | rfl | split

theorem handleDataPacket_next (t : Tunnel) (p : Packet) :
    (handleDataPacket t p).nextPacketConnID = t.nextPacketConnID := by
  simp only [handleDataPacket, updatePC]
  repeat first | rfl | split

theorem handleErrorPacket_next (t : Tunnel) (p : Packet) :
    (handleErrorPacket t p).nextPacketConnID = t.nextPacketConnID := by
  simp only [handleErrorPacket, updatePC]
  repeat first | rfl | split

theorem Close_next (t : Tunnel) :
    (Tunnel.Close t).nextPacketConnID = t.nextPacketConnID := by
  simp only [Tunnel.Close]
  repeat first | rfl | split

/-- Run-step helper: pushing one non-id-allocating operation through
the induction hypothesis. -/
theorem tunnelRunIds_stepcase {t t' : Tunnel} {rest : List TOp}
    (hnext : t'.nextPacketConnID = t.nextPacketConnID)
    (ih : ∀ s : Tunnel, 0 ≤ s.nextPacketConnID →
      s.nextPacketConnID + (tunnelRunIds s rest).length < 2 ^ 63 →
      tunnelRunIds s rest = intRange s.nextPacketConnID (tunnelRunIds s rest).length)
    (h0 : 0 ≤ t.nextPacketConnID)
    (hlt : t.nextPacketConnID + (tunnelRunIds t' rest).length < 2 ^ 63) :
    tunnelRunIds t' rest = intRange t.nextPacketConnID (tunnelRunIds t' rest).length := by
  have h := ih t' (hnext ▸ h0) (by rw [hnext]; exact hlt)
  rw [hnext] at h
  exact h

theorem tunnelRunIds_consecutive (ops : List TOp) : ∀ t : Tunnel,
    0 ≤ t.nextPacketConnID →
    t.nextPacketConnID + (tunnelRunIds t ops).length < 2 ^ 63 →
    tunnelRunIds t ops = intRange t.nextPacketConnID (tunnelRunIds t ops).length := by
  induction ops with
  | nil => intro t _ _; simp [tunnelRunIds, intRange]
  | cons op rest ih =>
    intro t h0 hlt
    cases op with
    | serveInit =>
      simp only [tunnelRunIds] at hlt ⊢
      exact tunnelRunIds_stepcase (by simp [tunnelStep, serveInit]) ih h0 hlt
    | sendPkt p sel =>
      simp only [tunnelRunIds] at hlt ⊢
      exact tunnelRunIds_stepcase (sendPacket_next t p sel) ih h0 hlt
    | closeT =>
      simp only [tunnelRunIds] at hlt ⊢
      exact tunnelRunIds_stepcase (Close_next t) ih h0 hlt
    | removePC i =>
      simp only [tunnelRunIds] at hlt ⊢
      exact tunnelRunIds_stepcase (by simp [tunnelStep, removePacketConn]) ih h0 hlt
    | handleData p =>
      simp only [tunnelRunIds] at hlt ⊢
      exact tunnelRunIds_stepcase (handleDataPacket_next t p) ih h0 hlt
    | handleErr p =>
      simp only [tunnelRunIds] at hlt ⊢
      exact tunnelRunIds_stepcase (handleErrorPacket_next t p) ih h0 hlt
    | newPacketConn b =>
      by_cases hi : t.inited = false
      · have hNP : NewPacketConn t b = (t, .error "connection not initialized") := by
          simp [NewPacketConn, hi]
        simp only [tunnelRunIds, hNP] at hlt ⊢
        exact ih t h0 hlt
      · have hi' : t.inited = true := by
          cases hb : t.inited
          · exact absurd hb hi
          · rfl
        by_cases hc : t.closed = true
        · have hNP : NewPacketConn t b = (t, .error "connection is closed") := by
            simp [NewPacketConn, hi', hc]
          simp only [tunnelRunIds, hNP] at hlt ⊢
          exact ih t h0 hlt
        · have hc' : t.closed = false := by
            cases hb : t.closed
            · rfl
            · exact absurd hb hc
          have hsnd : (NewPacketConn t b).2
              = .ok ⟨wrap64 (t.nextPacketConnID + 1), b, false, none, []⟩ := by
            simp [NewPacketConn, hi', hc']
          have hfst : (NewPacketConn t b).1.nextPacketConnID
              = wrap64 (t.nextPacketConnID + 1) := by
            simp [NewPacketConn, hi', hc']
          have hred : tunnelRunIds t (TOp.newPacketConn b :: rest)
              = wrap64 (t.nextPacketConnID + 1)
                  :: tunnelRunIds (NewPacketConn t b).1 rest := by
            simp only [tunnelRunIds, hsnd]
          rw [hred] at hlt ⊢
          rw [List.length_cons] at hlt ⊢
          push_cast at hlt
          have hlen : (0 : Int)
              ≤ ((tunnelRunIds (NewPacketConn t b).1 rest).length : Int) :=
            Int.natCast_nonneg _
          have hwrap : wrap64 (t.nextPacketConnID + 1) = t.nextPacketConnID + 1 :=
            wrap64_eq_self (by linarith) (by linarith)
          have ihres := ih (NewPacketConn t b).1
            (by rw [hfst, hwrap]; linarith)
            (by rw [hfst, hwrap]; linarith)
          rw [hfst, hwrap] at ihres
          rw [hwrap]
          exact intRange_cons ihres

theorem intRange_length (a : Int) (n : Nat) : (intRange a n).length = n := by
  simp [intRange]

/-- Claim C2: over any operation sequence on a freshly created tunnel
in which fewer than `2^63` ids are handed out (so the `int64` counter
cannot wrap), the conn ids returned by the successful `NewPacketConn`
calls are exactly `1, 2, 3, …` in order: strictly increasing, starting
at 1, and never repeating. -/
theorem c2_conn_ids_monotone (tid clusterName : String) (b : Bool) (ops : List TOp)
    (h : (tunnelRunIds (freshTunnel tid clusterName b) ops).length < 2 ^ 63) :
    tunnelRunIds (freshTunnel tid clusterName b) ops
      = intRange 0 (tunnelRunIds (freshTunnel tid clusterName b) ops).length
    ∧ (tunnelRunIds (freshTunnel tid clusterName b) ops).Chain' (· < ·)
    ∧ (tunnelRunIds (freshTunnel tid clusterName b) ops).Nodup
    ∧ (tunnelRunIds (freshTunnel tid clusterName b) ops).head?
        = (if (tunnelRunIds (freshTunnel tid clusterName b) ops).length = 0 then none
            else some 1) := by
  have h0 : (0 : Int) ≤ (freshTunnel tid clusterName b).nextPacketConnID := by
    simp [freshTunnel]
  have hlt : (freshTunnel tid clusterName b).nextPacketConnID
      + ((tunnelRunIds (freshTunnel tid clusterName b) ops).length : Int) < 2 ^ 63 := by
    have hc : ((tunnelRunIds (freshTunnel tid clusterName b) ops).length : Int)
        < (2 : Int) ^ 63 := by exact_mod_cast h
    simpa [freshTunnel] using hc
  have hmain := tunnelRunIds_consecutive ops (freshTunnel tid clusterName b) h0 hlt
  have hnext0 : (freshTunnel tid clusterName b).nextPacketConnID = 0 := rfl
  rw [hnext0] at hmain
  refine ⟨hmain, ?_, ?_, ?_⟩
  · rw [hmain]
    exact intRange_chain 0 _
  · rw [hmain]
    exact intRange_nodup 0 _
  · rw [hmain, intRange_head, intRange_length]
    norm_num

/-- Witness for C2: serve then two `NewPacketConn` calls on a fresh
tunnel hand out exactly the ids 1 and 2. -/
theorem c2_conn_ids_monotone_witness :
    tunnelRunIds (freshTunnel "t" "c" false)
        [TOp.serveInit, TOp.newPacketConn false, TOp.newPacketConn false]
      = intRange 0 (tunnelRunIds (freshTunnel "t" "c" false)
          [TOp.serveInit, TOp.newPacketConn false, TOp.newPacketConn false]).length
    ∧ (tunnelRunIds (freshTunnel "t" "c" false)
        [TOp.serveInit, TOp.newPacketConn false, TOp.newPacketConn false]).Chain' (· < ·)
    ∧ (tunnelRunIds (freshTunnel "t" "c" false)
        [TOp.serveInit, TOp.newPacketConn false, TOp.newPacketConn false]).Nodup
    ∧ (tunnelRunIds (freshTunnel "t" "c" false)
        [TOp.serveInit, TOp.newPacketConn false, TOp.newPacketConn false]).head?
      = (if (tunnelRunIds (freshTunnel "t" "c" false)
            [TOp.serveInit, TOp.newPacketConn false, TOp.newPacketConn false]).length = 0
          then none else some 1) :=
  c2_conn_ids_monotone "t" "c" false
    [TOp.serveInit, TOp.newPacketConn false, TOp.newPacketConn false]
    (by norm_num [show (tunnelRunIds (freshTunnel "t" "c" false)
        [TOp.serveInit, TOp.newPacketConn false, TOp.newPacketConn false]).length = 2
      from rfl])

end server
